import Mathlib

/-! Resource handlers of the GitLab provider: group membership and project-level MR approvals.

A shallow embedding of

* `internal/provider/sdk/resource_gitlab_group_membership.go`
* `internal/provider/sdk/resource_gitlab_project_level_mr_approvals.go`

Go strings are Lean strings, Go `int` is `Int`, a Go `error` is `Option Error`
(`none` is `nil`), a pointer field of a request struct is an `Option`.
The handlers talk to GitLab through the REST client; here the server is a
family of response functions over an arbitrary world type `σ`, and every
request a handler issues is appended to a log, so that "which calls were
made, in which order, with which payload" is a value one can reason about.
-/

namespace GitlabProvider

/-! ## Errors, diagnostics -/

/-- A non-nil Go error: its message (`err.Error()`), and the HTTP status of the
response it wraps when it is a `*gitlab.ErrorResponse` carrying a response. -/
structure Error where
  msg : String
  StatusCode : Option Nat
  deriving DecidableEq, Repr

/-- One entry of `diag.Diagnostics` (severity Error): its summary text. -/
structure Diagnostic where
  Summary : String
  deriving DecidableEq, Repr

/-- The type `diag.Diagnostics`: `[]` is the nil value, "no failure". -/
abbrev Diagnostics := List Diagnostic

/-- The helper `diag.FromErr` of terraform-plugin-sdk v2: a nil error gives nil
diagnostics, a non-nil error one diagnostic whose summary is the error text. -/
def diag.FromErr (err : Option Error) : Diagnostics :=
  match err with
  | none => []
  | some e => [{ Summary := e.msg }]

/-- The helper `diag.Errorf` for the formats of this package that end in `%v`
applied to an error: the text so far, followed by the error message. -/
def diag.Errorf (text : String) (err : Option Error) : Diagnostics :=
  match err with
  | some e => [{ Summary := text ++ e.msg }]
  | none => [{ Summary := text ++ "<nil>" }]

/-- The function `fmt.Errorf` for the `"<text>: %s"` formats of this package. -/
def fmt.Errorf (text : String) (operand : String) : Option Error :=
  some { msg := text ++ operand, StatusCode := none }

/-- The constant `http.StatusConflict`. -/
def http.StatusConflict : Nat := 409

/-- The constant `http.StatusNotFound`. -/
def http.StatusNotFound : Nat := 404

/-- Modelled from the spec: `is404` is declared outside the two files at hand.
The spec describes the client as one that "issues request, returns typed
response or error, optionally reports 404", and "not found" as the one
failure class that is not an error: an error is a 404 when it wraps a
response whose status is 404. -/
def is404 (err : Option Error) : Bool :=
  match err with
  | some e => e.StatusCode == some http.StatusNotFound
  | none => false

/-! ## strconv -/

/-- The decimal digit character of a number below ten. -/
def digitChar (n : Nat) : Char :=
  match n with
  | 0 => '0' | 1 => '1' | 2 => '2' | 3 => '3' | 4 => '4'
  | 5 => '5' | 6 => '6' | 7 => '7' | 8 => '8' | _ => '9'

/-- The value of a decimal digit character (`ch - '0'` when that is at most 9). -/
def digitVal (c : Char) : Option Nat :=
  if c = '0' then some 0 else if c = '1' then some 1 else if c = '2' then some 2
  else if c = '3' then some 3 else if c = '4' then some 4 else if c = '5' then some 5
  else if c = '6' then some 6 else if c = '7' then some 7 else if c = '8' then some 8
  else if c = '9' then some 9 else none

/-- The digit loop of `strconv.FormatInt` in base 10: least significant digit
first, written in front of what is already there. -/
def formatDigits : Nat → Nat → List Char → List Char
  | 0, _, acc => acc
  | fuel + 1, n, acc =>
    if n < 10 then digitChar n :: acc
    else formatDigits fuel (n / 10) (digitChar (n % 10) :: acc)

/-- The function `strconv.Itoa`: decimal text of an integer, `-` in front of a
negative one. -/
def strconv.Itoa (i : Int) : String :=
  if i < 0 then String.mk ('-' :: formatDigits (i.natAbs + 1) i.natAbs [])
  else String.mk (formatDigits (i.natAbs + 1) i.natAbs [])

/-- The digit loop of `strconv.Atoi`/`ParseUint` in base 10: `n = n*10 + digit`,
failing on the first byte that is not a digit. -/
def parseDigits : List Char → Nat → Option Nat
  | [], n => some n
  | c :: cs, n =>
    match digitVal c with
    | some v => parseDigits cs (n * 10 + v)
    | none => none

/-- The operand of a `%q` verb: the text between double quotes (Go also escapes
quotes, backslashes and unprintable characters inside; no property below reads
a summary that was built with `%q`). -/
def quoted (s : String) : String :=
  "\"" ++ s ++ "\""

/-- The error `strconv.ErrSyntax` wrapped in a `*NumError` for `Atoi`. -/
def strconv.syntaxError (s : String) : Error :=
  { msg := "strconv.Atoi: parsing " ++ quoted s ++ ": invalid syntax", StatusCode := none }

/-- The error `strconv.ErrRange` wrapped in a `*NumError` for `Atoi`. -/
def strconv.rangeError (s : String) : Error :=
  { msg := "strconv.Atoi: parsing " ++ quoted s ++ ": value out of range", StatusCode := none }

/-- The function `strconv.Atoi` on a 64-bit platform: an optional sign, then at
least one digit and nothing but digits; a syntax error gives 0, a value
outside the `int` range gives the nearest bound and a range error. -/
def strconv.Atoi (s : String) : Int × Option Error :=
  let neg := s.data.head? = some '-'
  let body := if s.data.head? = some '-' ∨ s.data.head? = some '+' then s.data.tail else s.data
  if body = [] then (0, some (strconv.syntaxError s))
  else
    match parseDigits body 0 with
    | none => (0, some (strconv.syntaxError s))
    | some n =>
      if neg then
        if n > 2 ^ 63 then (-(2 ^ 63), some (strconv.rangeError s)) else (-(n : Int), none)
      else
        if n ≥ 2 ^ 63 then (2 ^ 63 - 1, some (strconv.rangeError s)) else ((n : Int), none)

/-! ## Two-part identifiers -/

/-- Modelled from the spec: `buildTwoPartID` is declared outside the two files at
hand. The spec: the identifier is "formed by joining two or three natural
keys ... with a fixed delimiter"; the delimiter is `:`. -/
def buildTwoPartID (a b : String) : String :=
  a ++ ":" ++ b

/-- The part of a text before its first `:` and the part after it, when there
is a `:` at all. -/
def splitAtDelimiter : List Char → Option (List Char × List Char)
  | [] => none
  | c :: cs =>
    if c = ':' then some ([], cs)
    else
      match splitAtDelimiter cs with
      | some (a, b) => some (c :: a, b)
      | none => none

/-- Modelled from the spec: `parseTwoPartID` is declared outside the two files at
hand. The spec: the identifier is "reversed by splitting on that delimiter";
an identifier that does not split into two parts is an error. -/
def parseTwoPartID (id : String) : String × String × Option Error :=
  match splitAtDelimiter id.data with
  | some (a, b) => (String.mk a, String.mk b, none)
  | none => ("", "", some { msg := "unexpected ID format: " ++ id, StatusCode := none })

/-- The function `groupIdAndUserIdFromId`: split the identifier, parse the second
part as an integer; the split error, when there is one, wins over the parse
error. -/
def groupIdAndUserIdFromId (id : String) : String × Int × Option Error :=
  match parseTwoPartID id with
  | (groupId, userIdString, err) =>
    match strconv.Atoi userIdString with
    | (userId, e) =>
      let e := if err.isSome then err else e
      (groupId, userId, e)

/-! ## Records of the client library -/

/-- The fields of `gitlab.User` the handlers read. -/
structure User where
  ID : Int
  Username : String
  deriving DecidableEq, Repr

/-- The fields of `gitlab.GroupMember` the handlers read; `ExpiresAt` is the
pointer to the expiry date, held as the text its `String()` renders. -/
structure GroupMember where
  ID : Int
  Username : String
  AccessLevel : Int
  ExpiresAt : Option String
  deriving DecidableEq, Repr

/-- The field of `gitlab.Response` the handlers read. -/
structure Response where
  StatusCode : Nat
  deriving DecidableEq, Repr

/-- The fields of `gitlab.ProjectApprovals` the handlers read. -/
structure ProjectApprovals where
  ResetApprovalsOnPush : Bool
  DisableOverridingApproversPerMergeRequest : Bool
  MergeRequestsAuthorApproval : Bool
  MergeRequestsDisableCommittersApproval : Bool
  RequirePasswordToApprove : Bool
  deriving DecidableEq, Repr

/-- The request `gitlab.ListUsersOptions`, as far as the handlers fill it. -/
structure ListUsersOptions where
  Username : Option String
  deriving DecidableEq, Repr

/-- The request `gitlab.AddGroupMemberOptions`, as far as the handlers fill it. -/
structure AddGroupMemberOptions where
  UserID : Option Int
  AccessLevel : Option Int
  ExpiresAt : Option String
  deriving DecidableEq, Repr

/-- The request `gitlab.EditGroupMemberOptions`, as far as the handlers fill it. -/
structure EditGroupMemberOptions where
  AccessLevel : Option Int
  ExpiresAt : Option String
  deriving DecidableEq, Repr

/-- The request `gitlab.RemoveGroupMemberOptions`. -/
structure RemoveGroupMemberOptions where
  SkipSubresources : Option Bool
  UnassignIssuables : Option Bool
  deriving DecidableEq, Repr

/-- The request `gitlab.ChangeApprovalConfigurationOptions`, as far as the
handlers fill it: a field left `none` is not sent. -/
structure ChangeApprovalConfigurationOptions where
  ResetApprovalsOnPush : Option Bool
  DisableOverridingApproversPerMergeRequest : Option Bool
  MergeRequestsAuthorApproval : Option Bool
  MergeRequestsDisableCommittersApproval : Option Bool
  RequirePasswordToApprove : Option Bool
  deriving DecidableEq, Repr

/-- The `pid interface{}` argument of the project endpoints: the handlers pass
either an `int` or a `string`. -/
inductive ProjectRef where
  | int (n : Int)
  | str (s : String)
  deriving DecidableEq, Repr

/-! ## The remote side -/

/-- A request as the client library receives it: the endpoint, the address
arguments and the payload. -/
inductive Call where
  | ListUsers (opt : ListUsersOptions)
  | CurrentUser
  | AddGroupMember (gid : String) (opt : AddGroupMemberOptions)
  | EditGroupMember (gid : String) (user : Int) (opt : EditGroupMemberOptions)
  | GetGroupMember (gid : String) (user : Int)
  | RemoveGroupMember (gid : String) (user : Int) (opt : RemoveGroupMemberOptions)
  | ChangeApprovalConfiguration (pid : ProjectRef) (opt : ChangeApprovalConfigurationOptions)
  | GetApprovalConfiguration (pid : ProjectRef)
  deriving DecidableEq, Repr

/-- The GitLab server behind the client library: what each endpoint answers in a
world `σ`, and the world after the request. Results are Go result tuples: the
record returned next to a non-nil error is never read. -/
structure API (σ : Type) where
  ListUsers : ListUsersOptions → σ → List User × Option Error × σ
  CurrentUser : σ → User × Option Error × σ
  AddGroupMember : String → AddGroupMemberOptions → σ → Option Response × Option Error × σ
  EditGroupMember : String → Int → EditGroupMemberOptions → σ → Option Error × σ
  GetGroupMember : String → Int → σ → GroupMember × Option Error × σ
  RemoveGroupMember : String → Int → RemoveGroupMemberOptions → σ → Option Error × σ
  ChangeApprovalConfiguration :
    ProjectRef → ChangeApprovalConfigurationOptions → σ → Option Error × σ
  GetApprovalConfiguration : ProjectRef → σ → ProjectApprovals × Option Error × σ

/-- The connection a handler runs on: the current world and the requests issued
so far, oldest first. -/
structure Conn (σ : Type) where
  world : σ
  calls : List Call
  deriving DecidableEq

variable {σ : Type}

/-- The method `client.Users.ListUsers`. -/
def client.Users.ListUsers (api : API σ) (opt : ListUsersOptions) (c : Conn σ) :
    List User × Option Error × Conn σ :=
  match api.ListUsers opt c.world with
  | (users, err, w) => (users, err, { world := w, calls := c.calls ++ [Call.ListUsers opt] })

/-- The method `client.Users.CurrentUser`. -/
def client.Users.CurrentUser (api : API σ) (c : Conn σ) : User × Option Error × Conn σ :=
  match api.CurrentUser c.world with
  | (user, err, w) => (user, err, { world := w, calls := c.calls ++ [Call.CurrentUser] })

/-- The method `client.GroupMembers.AddGroupMember`. -/
def client.GroupMembers.AddGroupMember (api : API σ) (gid : String)
    (opt : AddGroupMemberOptions) (c : Conn σ) : Option Response × Option Error × Conn σ :=
  match api.AddGroupMember gid opt c.world with
  | (resp, err, w) =>
    (resp, err, { world := w, calls := c.calls ++ [Call.AddGroupMember gid opt] })

/-- The method `client.GroupMembers.EditGroupMember`. -/
def client.GroupMembers.EditGroupMember (api : API σ) (gid : String) (user : Int)
    (opt : EditGroupMemberOptions) (c : Conn σ) : Option Error × Conn σ :=
  match api.EditGroupMember gid user opt c.world with
  | (err, w) => (err, { world := w, calls := c.calls ++ [Call.EditGroupMember gid user opt] })

/-- The method `client.GroupMembers.GetGroupMember`. -/
def client.GroupMembers.GetGroupMember (api : API σ) (gid : String) (user : Int)
    (c : Conn σ) : GroupMember × Option Error × Conn σ :=
  match api.GetGroupMember gid user c.world with
  | (m, err, w) => (m, err, { world := w, calls := c.calls ++ [Call.GetGroupMember gid user] })

/-- The method `client.GroupMembers.RemoveGroupMember`. -/
def client.GroupMembers.RemoveGroupMember (api : API σ) (gid : String) (user : Int)
    (opt : RemoveGroupMemberOptions) (c : Conn σ) : Option Error × Conn σ :=
  match api.RemoveGroupMember gid user opt c.world with
  | (err, w) => (err, { world := w, calls := c.calls ++ [Call.RemoveGroupMember gid user opt] })

/-- The method `client.Projects.ChangeApprovalConfiguration`. -/
def client.Projects.ChangeApprovalConfiguration (api : API σ) (pid : ProjectRef)
    (opt : ChangeApprovalConfigurationOptions) (c : Conn σ) : Option Error × Conn σ :=
  match api.ChangeApprovalConfiguration pid opt c.world with
  | (err, w) =>
    (err, { world := w, calls := c.calls ++ [Call.ChangeApprovalConfiguration pid opt] })

/-- The method `client.Projects.GetApprovalConfiguration`. -/
def client.Projects.GetApprovalConfiguration (api : API σ) (pid : ProjectRef) (c : Conn σ) :
    ProjectApprovals × Option Error × Conn σ :=
  match api.GetApprovalConfiguration pid c.world with
  | (a, err, w) => (a, err, { world := w, calls := c.calls ++ [Call.GetApprovalConfiguration pid] })

/-- What the two files use and do not declare: the two access-level tables of
the package (a Go map read with a missing key gives the zero value, so a table
is a total function) and the standard library function `strings.ToLower`. -/
structure Package where
  accessLevelNameToValue : String → Int
  accessLevelValueToName : Int → String
  ToLower : String → String

/-! ## Group membership -/

/-- The `*schema.ResourceData` of a `gitlab_group_membership`: the identifier and
the schema fields as `d.Get` sees them (an attribute that is not set reads as
the zero value of its type). -/
structure GroupMembershipData where
  Id : String
  group_id : String
  user_id : Int
  username : String
  access_level : String
  expires_at : String
  skip_subresources_on_destroy : Bool
  unassign_issuables_on_destroy : Bool
  deriving DecidableEq, Repr

/-- The call `d.GetOk("user_id")`: the value, and whether it is set to something
other than the zero value. -/
def GroupMembershipData.GetOk_user_id (d : GroupMembershipData) : Int × Bool :=
  (d.user_id, d.user_id != 0)

/-- The call `d.GetOk("username")`: the value, and whether it is set to something
other than the zero value. -/
def GroupMembershipData.GetOk_username (d : GroupMembershipData) : String × Bool :=
  (d.username, d.username != "")

/-- The function `resourceGitlabGroupMembershipSetToState`. -/
def resourceGitlabGroupMembershipSetToState (pkg : Package) (d : GroupMembershipData)
    (groupMember : GroupMember) (groupId : String) : GroupMembershipData :=
  let d := { d with group_id := groupId }
  let d := { d with user_id := groupMember.ID }
  let d := { d with username := groupMember.Username }
  let d := { d with access_level := pkg.accessLevelValueToName groupMember.AccessLevel }
  let d :=
    match groupMember.ExpiresAt with
    | some t => { d with expires_at := t }
    | none => { d with expires_at := "" }
  let userId := strconv.Itoa groupMember.ID
  { d with Id := buildTwoPartID groupId userId }

/-- The function `resourceGitlabGroupMembershipRead`. -/
def resourceGitlabGroupMembershipRead (pkg : Package) (api : API σ)
    (d : GroupMembershipData) (c : Conn σ) : Diagnostics × GroupMembershipData × Conn σ :=
  let id := d.Id
  match groupIdAndUserIdFromId id with
  | (groupId, userId, err) =>
    if err.isSome then (diag.FromErr err, d, c)
    else
      match client.GroupMembers.GetGroupMember api groupId userId c with
      | (groupMember, err, c) =>
        if err.isSome then
          if is404 err then ([], { d with Id := "" }, c)
          else (diag.FromErr err, d, c)
        else ([], resourceGitlabGroupMembershipSetToState pkg d groupMember groupId, c)

/-- The block that opens both Create (lines 89-90, 95-119) and Update (lines
197-198, 203-227), the same text in both: the target user id, taken from a
lookup by lower-cased name when `username` is set, else from `user_id` when
that is set, else a failure. -/
def targetUserId (pkg : Package) (api : API σ) (d : GroupMembershipData) (c : Conn σ) :
    Except Diagnostics Int × Conn σ :=
  match d.GetOk_user_id, d.GetOk_username with
  | (userIdData, userIdOk), (usernameData, usernameOk) =>
    if usernameOk then
      let username := pkg.ToLower usernameData
      let listUsersOptions : ListUsersOptions := { Username := some username }
      match client.Users.ListUsers api listUsersOptions c with
      | (users, err, c) =>
        if err.isSome then (.error (diag.FromErr err), c)
        else if users.length = 0 then
          (.error (diag.FromErr (fmt.Errorf "couldn't find a user matching: " username)), c)
        else if users.length ≠ 1 then
          (.error (diag.FromErr (fmt.Errorf "more than one user found matching: " username)), c)
        else
          match users with
          | u :: _ => (.ok u.ID, c)
          | [] => (.ok 0, c)
    else if userIdOk then (.ok userIdData, c)
    else
      (.error (diag.FromErr
        (some { msg := "one and only one of user_id or username must be set",
                StatusCode := none })), c)

/-- The function `resourceGitlabGroupMembershipCreate`. Inside the failure branch
of the add-member call, `user, _, err := client.Users.CurrentUser()` declares
a new `err` for that block, which is the one the two later `diag.FromErr(err)`
of the block read. -/
def resourceGitlabGroupMembershipCreate (pkg : Package) (api : API σ)
    (d : GroupMembershipData) (c : Conn σ) : Diagnostics × GroupMembershipData × Conn σ :=
  let groupId := d.group_id
  let expiresAt := d.expires_at
  let accessLevelId := pkg.accessLevelNameToValue d.access_level
  match targetUserId pkg api d c with
  | (.error ds, c) => (ds, d, c)
  | (.ok userId, c) =>
    let options : AddGroupMemberOptions :=
      { UserID := some userId, AccessLevel := some accessLevelId, ExpiresAt := some expiresAt }
    match client.GroupMembers.AddGroupMember api groupId options c with
    | (resp, err, c) =>
      let finish (c : Conn σ) : Diagnostics × GroupMembershipData × Conn σ :=
        let userIdString := strconv.Itoa userId
        resourceGitlabGroupMembershipRead pkg api
          { d with Id := buildTwoPartID groupId userIdString } c
      if err.isSome then
        match client.Users.CurrentUser api c with
        | (user, err, c) =>
          if err.isSome then (diag.FromErr err, d, c)
          else if (resp.map (fun r => r.StatusCode)) = some http.StatusConflict
              ∧ user.ID = userId then
            let options : EditGroupMemberOptions :=
              { AccessLevel := some accessLevelId, ExpiresAt := some expiresAt }
            match client.GroupMembers.EditGroupMember api groupId userId options c with
            | (err, c) =>
              if err.isSome then (diag.FromErr err, d, c)
              else finish c
          else (diag.FromErr err, d, c)
      else finish c

/-- The function `resourceGitlabGroupMembershipUpdate`. -/
def resourceGitlabGroupMembershipUpdate (pkg : Package) (api : API σ)
    (d : GroupMembershipData) (c : Conn σ) : Diagnostics × GroupMembershipData × Conn σ :=
  let groupId := d.group_id
  let expiresAt := d.expires_at
  let accessLevelId := pkg.accessLevelNameToValue (pkg.ToLower d.access_level)
  match targetUserId pkg api d c with
  | (.error ds, c) => (ds, d, c)
  | (.ok userId, c) =>
    let options : EditGroupMemberOptions :=
      { AccessLevel := some accessLevelId, ExpiresAt := some expiresAt }
    match client.GroupMembers.EditGroupMember api groupId userId options c with
    | (err, c) =>
      if err.isSome then (diag.FromErr err, d, c)
      else resourceGitlabGroupMembershipRead pkg api d c

/-- The function `resourceGitlabGroupMembershipDelete`. -/
def resourceGitlabGroupMembershipDelete (api : API σ)
    (d : GroupMembershipData) (c : Conn σ) : Diagnostics × GroupMembershipData × Conn σ :=
  let id := d.Id
  match groupIdAndUserIdFromId id with
  | (groupId, userId, err) =>
    if err.isSome then (diag.FromErr err, d, c)
    else
      let options : RemoveGroupMemberOptions :=
        { SkipSubresources := some d.skip_subresources_on_destroy,
          UnassignIssuables := some d.unassign_issuables_on_destroy }
      match client.GroupMembers.RemoveGroupMember api groupId userId options c with
      | (err, c) =>
        if err.isSome then (diag.FromErr err, d, c)
        else ([], d, c)

/-! ## Project-level MR approvals -/

/-- The five approval flags of the `gitlab_project_level_mr_approvals` schema. -/
structure ApprovalFlags where
  reset_approvals_on_push : Bool
  disable_overriding_approvers_per_merge_request : Bool
  merge_requests_author_approval : Bool
  merge_requests_disable_committers_approval : Bool
  require_password_to_approve : Bool
  deriving DecidableEq, Repr

/-- The `*schema.ResourceData` of a `gitlab_project_level_mr_approvals`: the
identifier, the schema fields as `d.Get` sees them, and the flags of the prior
state, which is what `d.HasChange` compares the current value with. -/
structure ProjectLevelMRApprovalsData where
  Id : String
  project_id : Int
  flags : ApprovalFlags
  state : ApprovalFlags
  deriving DecidableEq, Repr

/-- The call `d.HasChange(key)` for a flag: the prior and the current value differ. -/
def ProjectLevelMRApprovalsData.HasChange (d : ProjectLevelMRApprovalsData)
    (key : ApprovalFlags → Bool) : Bool :=
  key d.state != key d.flags

/-- The function `resourceGitlabProjectLevelMRApprovalsRead`. -/
def resourceGitlabProjectLevelMRApprovalsRead (api : API σ)
    (d : ProjectLevelMRApprovalsData) (c : Conn σ) :
    Diagnostics × ProjectLevelMRApprovalsData × Conn σ :=
  match strconv.Atoi d.Id with
  | (projectId, err) =>
    if err.isSome then
      (diag.Errorf ("project ID must be an integer (was " ++ quoted d.Id ++ "): ") err, d, c)
    else
      match client.Projects.GetApprovalConfiguration api (ProjectRef.int projectId) c with
      | (approvalConfig, err, c) =>
        if err.isSome then
          if is404 err then ([], { d with Id := "" }, c)
          else
            (diag.Errorf "couldn't read approval configuration: " err, d, c)
        else
          let d := { d with project_id := projectId }
          let d := { d with flags.reset_approvals_on_push := approvalConfig.ResetApprovalsOnPush }
          let d := { d with flags.disable_overriding_approvers_per_merge_request :=
                              approvalConfig.DisableOverridingApproversPerMergeRequest }
          let d := { d with flags.merge_requests_author_approval :=
                              approvalConfig.MergeRequestsAuthorApproval }
          let d := { d with flags.merge_requests_disable_committers_approval :=
                              approvalConfig.MergeRequestsDisableCommittersApproval }
          let d := { d with flags.require_password_to_approve :=
                              approvalConfig.RequirePasswordToApprove }
          ([], d, c)

/-- The function `resourceGitlabProjectLevelMRApprovalsCreate`. -/
def resourceGitlabProjectLevelMRApprovalsCreate (api : API σ)
    (d : ProjectLevelMRApprovalsData) (c : Conn σ) :
    Diagnostics × ProjectLevelMRApprovalsData × Conn σ :=
  let projectId := d.project_id
  let options : ChangeApprovalConfigurationOptions :=
    { ResetApprovalsOnPush := some d.flags.reset_approvals_on_push,
      DisableOverridingApproversPerMergeRequest :=
        some d.flags.disable_overriding_approvers_per_merge_request,
      MergeRequestsAuthorApproval := some d.flags.merge_requests_author_approval,
      MergeRequestsDisableCommittersApproval :=
        some d.flags.merge_requests_disable_committers_approval,
      RequirePasswordToApprove := some d.flags.require_password_to_approve }
  match client.Projects.ChangeApprovalConfiguration api (ProjectRef.int projectId) options c with
  | (err, c) =>
    if err.isSome then
      (diag.Errorf "couldn't create approval configuration: " err, d, c)
    else
      resourceGitlabProjectLevelMRApprovalsRead api { d with Id := strconv.Itoa projectId } c

/-- The options `resourceGitlabProjectLevelMRApprovalsUpdate` builds (lines
119-138): starting from the empty struct, each flag is filled in from the
current value when `d.HasChange` reports it changed. -/
def updateOptions (d : ProjectLevelMRApprovalsData) : ChangeApprovalConfigurationOptions :=
  let options : ChangeApprovalConfigurationOptions :=
    { ResetApprovalsOnPush := none, DisableOverridingApproversPerMergeRequest := none,
      MergeRequestsAuthorApproval := none, MergeRequestsDisableCommittersApproval := none,
      RequirePasswordToApprove := none }
  let options :=
    if d.HasChange (fun f => f.reset_approvals_on_push) then
      { options with ResetApprovalsOnPush := some d.flags.reset_approvals_on_push }
    else options
  let options :=
    if d.HasChange (fun f => f.disable_overriding_approvers_per_merge_request) then
      { options with DisableOverridingApproversPerMergeRequest :=
                       some d.flags.disable_overriding_approvers_per_merge_request }
    else options
  let options :=
    if d.HasChange (fun f => f.merge_requests_author_approval) then
      { options with MergeRequestsAuthorApproval := some d.flags.merge_requests_author_approval }
    else options
  let options :=
    if d.HasChange (fun f => f.merge_requests_disable_committers_approval) then
      { options with MergeRequestsDisableCommittersApproval :=
                       some d.flags.merge_requests_disable_committers_approval }
    else options
  let options :=
    if d.HasChange (fun f => f.require_password_to_approve) then
      { options with RequirePasswordToApprove := some d.flags.require_password_to_approve }
    else options
  options

/-- The function `resourceGitlabProjectLevelMRApprovalsUpdate`: the request is
addressed with `d.Id()` as it stands, a string. -/
def resourceGitlabProjectLevelMRApprovalsUpdate (api : API σ)
    (d : ProjectLevelMRApprovalsData) (c : Conn σ) :
    Diagnostics × ProjectLevelMRApprovalsData × Conn σ :=
  let options := updateOptions d
  match client.Projects.ChangeApprovalConfiguration api (ProjectRef.str d.Id) options c with
  | (err, c) =>
    if err.isSome then
      (diag.Errorf "couldn't update approval configuration: " err, d, c)
    else resourceGitlabProjectLevelMRApprovalsRead api d c

/-- The function `resourceGitlabProjectLevelMRApprovalsDelete`: the request is
addressed with `d.Id()` as it stands, a string. -/
def resourceGitlabProjectLevelMRApprovalsDelete (api : API σ)
    (d : ProjectLevelMRApprovalsData) (c : Conn σ) :
    Diagnostics × ProjectLevelMRApprovalsData × Conn σ :=
  let projectId := d.Id
  let options : ChangeApprovalConfigurationOptions :=
    { ResetApprovalsOnPush := some true,
      DisableOverridingApproversPerMergeRequest := some false,
      MergeRequestsAuthorApproval := some false,
      MergeRequestsDisableCommittersApproval := some false,
      RequirePasswordToApprove := some false }
  match client.Projects.ChangeApprovalConfiguration api (ProjectRef.str projectId) options c with
  | (err, c) =>
    if err.isSome then
      (diag.Errorf "couldn't reset approval configuration: " err, d, c)
    else ([], d, c)

/-! ## Vocabulary of the statements -/

/-- A decimal integer as text: an optional sign, then one digit or more and
nothing else. -/
def isDecimalInteger (s : List Char) : Bool :=
  match s with
  | [] => false
  | c :: cs =>
    if c = '-' ∨ c = '+' then !cs.isEmpty && cs.all (fun x => (digitVal x).isSome)
    else (c :: cs).all (fun x => (digitVal x).isSome)

/-- A well-formed group-membership identifier: a group part without delimiter, the
delimiter, and a decimal integer. -/
def WellFormedMembershipId (id : String) : Prop :=
  ∃ g u : List Char, id.data = g ++ ':' :: u ∧ ':' ∉ g ∧ isDecimalInteger u = true

/-! ## Sample servers and records -/

/-- Sample tables: the access levels of a group, and ASCII lower-casing. -/
def sampleTables : Package where
  accessLevelNameToValue := fun name =>
    if name = "guest" then 10 else if name = "reporter" then 20
    else if name = "developer" then 30 else if name = "maintainer" then 40
    else if name = "owner" then 50 else 0
  accessLevelValueToName := fun v =>
    if v = 10 then "guest" else if v = 20 then "reporter"
    else if v = 30 then "developer" else if v = 40 then "maintainer"
    else if v = 50 then "owner" else ""
  ToLower := fun s => String.mk (s.data.map Char.toLower)

/-- A server on which every request succeeds: the one user is `alice` (id 7),
the acting user is `root` (id 1), a member is read back as a developer
without expiry, all approval flags read back false. -/
def calmServer : API Unit where
  ListUsers := fun opt w =>
    (if opt.Username = some "alice" then [{ ID := 7, Username := "alice" }] else [], none, w)
  CurrentUser := fun w => ({ ID := 1, Username := "root" }, none, w)
  AddGroupMember := fun _ _ w => (some { StatusCode := 201 }, none, w)
  EditGroupMember := fun _ _ _ w => (none, w)
  GetGroupMember := fun _ u w =>
    ({ ID := u, Username := "alice", AccessLevel := 30, ExpiresAt := none }, none, w)
  RemoveGroupMember := fun _ _ _ w => (none, w)
  ChangeApprovalConfiguration := fun _ _ w => (none, w)
  GetApprovalConfiguration := fun _ w =>
    ({ ResetApprovalsOnPush := false, DisableOverridingApproversPerMergeRequest := false,
       MergeRequestsAuthorApproval := false, MergeRequestsDisableCommittersApproval := false,
       RequirePasswordToApprove := false }, none, w)

/-- The error of a response with the given status. -/
def statusError (text : String) (status : Nat) : Error :=
  { msg := text, StatusCode := some status }

/-- A server that refuses to add a member (403 Forbidden); the rest is calm. -/
def forbiddingServer : API Unit :=
  { calmServer with
    AddGroupMember := fun _ _ w =>
      (some { StatusCode := 403 }, some (statusError "403 Forbidden" 403), w) }

/-- A server on which the acting user (id 7) is already a member: adding answers
409 Conflict; the rest is calm. -/
def ownerServer : API Unit :=
  { calmServer with
    CurrentUser := fun w => ({ ID := 7, Username := "alice" }, none, w)
    AddGroupMember := fun _ _ w =>
      (some { StatusCode := 409 }, some (statusError "409 Conflict" 409), w) }

/-- A server on which the member and the approval configuration are gone: reading
and removing answer 404 Not Found. -/
def goneServer : API Unit :=
  { calmServer with
    GetGroupMember := fun _ u w =>
      ({ ID := u, Username := "", AccessLevel := 0, ExpiresAt := none },
        some (statusError "404 Not Found" 404), w)
    RemoveGroupMember := fun _ _ _ w => (some (statusError "404 Not Found" 404), w)
    GetApprovalConfiguration := fun _ w =>
      ({ ResetApprovalsOnPush := false, DisableOverridingApproversPerMergeRequest := false,
         MergeRequestsAuthorApproval := false, MergeRequestsDisableCommittersApproval := false,
         RequirePasswordToApprove := false }, some (statusError "404 Not Found" 404), w) }

/-- A configuration that names the user by id: user 7 as developer of `grp`. -/
def membershipById : GroupMembershipData :=
  { Id := "", group_id := "grp", user_id := 7, username := "", access_level := "developer",
    expires_at := "2030-01-01", skip_subresources_on_destroy := false,
    unassign_issuables_on_destroy := true }

/-- A fresh connection: nothing requested yet. -/
def freshConn : Conn Unit := { world := (), calls := [] }

/-- All five flags false. -/
def noFlags : ApprovalFlags :=
  { reset_approvals_on_push := false, disable_overriding_approvers_per_merge_request := false,
    merge_requests_author_approval := false, merge_requests_disable_committers_approval := false,
    require_password_to_approve := false }

/-- An approvals record of project 12 whose `reset_approvals_on_push` is being
switched on. -/
def approvalsOfProject12 : ProjectLevelMRApprovalsData :=
  { Id := "12", project_id := 12, flags := { noFlags with reset_approvals_on_push := true },
    state := noFlags }

/-! ## Lemmas on the number conversions -/

theorem digitVal_digitChar (d : Nat) (h : d < 10) : digitVal (digitChar d) = some d := by
  interval_cases d <;> decide

theorem formatDigits_append (fuel : Nat) :
    ∀ (n : Nat) (acc : List Char), formatDigits fuel n acc = formatDigits fuel n [] ++ acc := by
  induction fuel with
  | zero => intro n acc; simp [formatDigits]
  | succ f ih =>
    intro n acc
    unfold formatDigits
    by_cases h : n < 10
    · simp [h]
    · simp only [h, if_false]
      rw [ih (n / 10) (digitChar (n % 10) :: acc), ih (n / 10) [digitChar (n % 10)]]
      simp

theorem formatDigits_ne_nil (fuel n : Nat) : formatDigits (fuel + 1) n [] ≠ [] := by
  unfold formatDigits
  by_cases h : n < 10
  · simp [h]
  · simp only [h, if_false]
    rw [formatDigits_append]
    simp

theorem parseDigits_append (l₁ l₂ : List Char) :
    ∀ a : Nat, parseDigits (l₁ ++ l₂) a = (parseDigits l₁ a).bind (parseDigits l₂) := by
  induction l₁ with
  | nil => intro a; simp [parseDigits]
  | cons c cs ih =>
    intro a
    simp only [List.cons_append, parseDigits]
    cases digitVal c with
    | none => simp
    | some v => simpa using ih (a * 10 + v)

theorem parseDigits_formatDigits (fuel : Nat) :
    ∀ n : Nat, n < 10 ^ fuel → parseDigits (formatDigits fuel n []) 0 = some n := by
  induction fuel with
  | zero =>
    intro n hn
    have : n = 0 := by simpa using hn
    subst this
    simp [formatDigits, parseDigits]
  | succ f ih =>
    intro n hn
    unfold formatDigits
    by_cases h : n < 10
    · simp [h, parseDigits, digitVal_digitChar n h]
    · simp only [h, if_false]
      have hdiv : n / 10 < 10 ^ f := by
        rw [Nat.div_lt_iff_lt_mul (by norm_num)]
        calc n < 10 ^ (f + 1) := hn
          _ = 10 ^ f * 10 := by ring
      rw [formatDigits_append, parseDigits_append, ih (n / 10) hdiv]
      have hm : n % 10 < 10 := Nat.mod_lt _ (by norm_num)
      simp only [Option.bind, parseDigits, digitVal_digitChar _ hm]
      congr 1
      omega

theorem parseDigits_itoa_digits (n : Nat) :
    parseDigits (formatDigits (n + 1) n []) 0 = some n := by
  apply parseDigits_formatDigits
  calc n < 10 ^ n := Nat.lt_pow_self (by norm_num) n
    _ ≤ 10 ^ (n + 1) := Nat.pow_le_pow_right (by norm_num) (Nat.le_succ n)

/-- Text that parses as digits does not begin with a sign. -/
theorem head_not_sign_of_parseDigits (l : List Char) (a n : Nat)
    (h : parseDigits l a = some n) : l.head? ≠ some '-' ∧ l.head? ≠ some '+' := by
  cases l with
  | nil => simp
  | cons c cs =>
    simp only [List.head?_cons, ne_eq, Option.some.injEq]
    constructor
    · intro hc
      subst hc
      simp [parseDigits, digitVal] at h
    · intro hc
      subst hc
      simp [parseDigits, digitVal] at h

/-- The function `strconv.Atoi` inverts `strconv.Itoa` on the range of a 64-bit `int`. -/
theorem atoi_itoa (i : Int) (hlo : -(2 ^ 63) ≤ i) (hhi : i < 2 ^ 63) :
    strconv.Atoi (strconv.Itoa i) = (i, none) := by
  have hp := parseDigits_itoa_digits i.natAbs
  have hne := formatDigits_ne_nil i.natAbs i.natAbs
  have hs := head_not_sign_of_parseDigits _ _ _ hp
  by_cases hneg : i < 0
  · have hle : ¬ (9223372036854775808 < i.natAbs) := by omega
    simp only [strconv.Atoi, strconv.Itoa, hneg, if_true, List.head?_cons, true_or,
      List.tail_cons, hne, if_false, hp, gt_iff_lt]
    norm_num
    rw [if_neg hle, abs_of_neg hneg, neg_neg]
  · have hlt : ¬ (i.natAbs ≥ 9223372036854775808) := by omega
    simp only [strconv.Atoi, strconv.Itoa, hneg, if_false, hs.1, hs.2, or_self, hne, hp]
    norm_num
    rw [if_neg hlt, abs_of_nonneg (not_lt.mp hneg)]

/-! ## Lemmas on the identifier -/

theorem splitAtDelimiter_append (g u : List Char) (h : ':' ∉ g) :
    splitAtDelimiter (g ++ ':' :: u) = some (g, u) := by
  induction g with
  | nil => simp [splitAtDelimiter]
  | cons c cs ih =>
    have hc : c ≠ ':' := fun e => h (by simp [e])
    have hcs : ':' ∉ cs := fun e => h (by simp [e])
    simp [splitAtDelimiter, hc, ih hcs]

theorem splitAtDelimiter_some (l : List Char) :
    ∀ a b : List Char, splitAtDelimiter l = some (a, b) → l = a ++ ':' :: b ∧ ':' ∉ a := by
  induction l with
  | nil => intro a b h; simp [splitAtDelimiter] at h
  | cons c cs ih =>
    intro a b h
    unfold splitAtDelimiter at h
    by_cases hc : c = ':'
    · simp only [hc, if_true, Option.some.injEq, Prod.mk.injEq] at h
      obtain ⟨ha, hb⟩ := h
      subst ha hb hc
      simp
    · simp only [hc, if_false] at h
      cases hsp : splitAtDelimiter cs with
      | none => simp [hsp] at h
      | some p =>
        obtain ⟨a', b'⟩ := p
        simp only [hsp, Option.some.injEq, Prod.mk.injEq] at h
        obtain ⟨ha, hb⟩ := h
        subst ha hb
        obtain ⟨h1, h2⟩ := ih a' b' hsp
        refine ⟨by simp [h1], ?_⟩
        intro hmem
        rcases List.mem_cons.mp hmem with e | e
        · exact hc e.symm
        · exact h2 e

theorem splitAtDelimiter_none (l : List Char) (h : ':' ∉ l) : splitAtDelimiter l = none := by
  induction l with
  | nil => simp [splitAtDelimiter]
  | cons c cs ih =>
    have hc : c ≠ ':' := fun e => h (by simp [e])
    have hcs : ':' ∉ cs := fun e => h (by simp [e])
    simp [splitAtDelimiter, hc, ih hcs]

theorem buildTwoPartID_data (a b : String) :
    (buildTwoPartID a b).data = a.data ++ ':' :: b.data := by
  simp [buildTwoPartID, String.data_append]

theorem parseDigits_all_digits (l : List Char) :
    ∀ a n : Nat, parseDigits l a = some n → l.all (fun x => (digitVal x).isSome) = true := by
  induction l with
  | nil => intro a n _; simp
  | cons c cs ih =>
    intro a n h
    unfold parseDigits at h
    cases hd : digitVal c with
    | none => simp [hd] at h
    | some v =>
      simp only [hd] at h
      simp [hd, ih _ _ h]

/-- What `strconv.Atoi` accepts is a decimal integer. -/
theorem isDecimalInteger_of_atoi (s : String) (h : (strconv.Atoi s).2 = none) :
    isDecimalInteger s.data = true := by
  unfold strconv.Atoi at h
  simp only at h
  by_cases hb : (if s.data.head? = some '-' ∨ s.data.head? = some '+' then s.data.tail
      else s.data) = []
  · simp [hb] at h
  · simp only [hb, if_false] at h
    cases hp : parseDigits (if s.data.head? = some '-' ∨ s.data.head? = some '+' then
        s.data.tail else s.data) 0 with
    | none => simp [hp] at h
    | some n =>
      have hall := parseDigits_all_digits _ _ _ hp
      cases hl : s.data with
      | nil => simp [hl] at hb
      | cons c cs =>
        rw [hl] at hall hb
        simp only [List.head?_cons, Option.some.injEq, List.tail_cons] at hall hb
        unfold isDecimalInteger
        by_cases hc : c = '-' ∨ c = '+'
        · simp only [hc, if_true] at hall hb ⊢
          simp only [Bool.and_eq_true, Bool.not_eq_true', hall, and_true]
          cases cs with
          | nil => exact absurd rfl hb
          | cons x xs => rfl
        · simp only [hc, if_false] at hall ⊢
          exact hall

/-- A membership identifier that decodes is well-formed. -/
theorem wellFormed_of_decodes (id : String) (h : (groupIdAndUserIdFromId id).2.2 = none) :
    WellFormedMembershipId id := by
  unfold groupIdAndUserIdFromId parseTwoPartID at h
  cases hsp : splitAtDelimiter id.data with
  | none => simp [hsp] at h
  | some p =>
    obtain ⟨a, b⟩ := p
    simp only [hsp, Option.isSome_none, Bool.false_eq_true, if_false] at h
    obtain ⟨h1, h2⟩ := splitAtDelimiter_some _ _ _ hsp
    exact ⟨a, b, h1, h2, isDecimalInteger_of_atoi (String.mk b) h⟩

theorem decode_encode (groupId : String) (userId : Int)
    (hg : ':' ∉ groupId.data) (hlo : -(2 ^ 63) ≤ userId) (hhi : userId < 2 ^ 63) :
    groupIdAndUserIdFromId (buildTwoPartID groupId (strconv.Itoa userId))
      = (groupId, userId, none) := by
  unfold groupIdAndUserIdFromId parseTwoPartID
  rw [buildTwoPartID_data, splitAtDelimiter_append _ _ hg]
  simp only
  rw [atoi_itoa userId hlo hhi]
  simp

/-! ## Lemmas on the request log -/

/-- Read of a membership adds at most fetches of a member to the log. -/
theorem membership_read_calls {σ : Type} (pkg : Package) (api : API σ)
    (d : GroupMembershipData) (c : Conn σ) :
    ∃ rest : List Call,
      (resourceGitlabGroupMembershipRead pkg api d c).2.2.calls = c.calls ++ rest ∧
      ∀ x ∈ rest, ∃ g u, x = Call.GetGroupMember g u := by
  rcases hdec : groupIdAndUserIdFromId d.Id with ⟨g, u, e⟩
  cases e with
  | some e => exact ⟨[], by simp [resourceGitlabGroupMembershipRead, hdec]⟩
  | none =>
    rcases hget : api.GetGroupMember g u c.world with ⟨m, err, w⟩
    refine ⟨[Call.GetGroupMember g u], ?_, ?_⟩
    · cases err with
      | none =>
        simp [resourceGitlabGroupMembershipRead, hdec, client.GroupMembers.GetGroupMember, hget]
      | some err =>
        by_cases h404 : is404 (some err) = true
        · simp [resourceGitlabGroupMembershipRead, hdec, client.GroupMembers.GetGroupMember,
            hget, h404]
        · simp [resourceGitlabGroupMembershipRead, hdec, client.GroupMembers.GetGroupMember,
            hget, h404]
    · intro x hx
      exact ⟨g, u, by simpa using hx⟩

/-- Read of an approval configuration adds at most fetches of a configuration to
the log. -/
theorem approvals_read_calls {σ : Type} (api : API σ)
    (d : ProjectLevelMRApprovalsData) (c : Conn σ) :
    ∃ rest : List Call,
      (resourceGitlabProjectLevelMRApprovalsRead api d c).2.2.calls = c.calls ++ rest ∧
      ∀ x ∈ rest, ∃ p, x = Call.GetApprovalConfiguration p := by
  rcases hdec : strconv.Atoi d.Id with ⟨p, e⟩
  cases e with
  | some e => exact ⟨[], by simp [resourceGitlabProjectLevelMRApprovalsRead, hdec]⟩
  | none =>
    rcases hget : api.GetApprovalConfiguration (ProjectRef.int p) c.world with ⟨a, err, w⟩
    refine ⟨[Call.GetApprovalConfiguration (ProjectRef.int p)], ?_, ?_⟩
    · cases err with
      | none =>
        simp [resourceGitlabProjectLevelMRApprovalsRead, hdec,
          client.Projects.GetApprovalConfiguration, hget]
      | some err =>
        by_cases h404 : is404 (some err) = true
        · simp [resourceGitlabProjectLevelMRApprovalsRead, hdec,
            client.Projects.GetApprovalConfiguration, hget, h404]
        · simp [resourceGitlabProjectLevelMRApprovalsRead, hdec,
            client.Projects.GetApprovalConfiguration, hget, h404]
    · intro x hx
      exact ⟨ProjectRef.int p, by simpa using hx⟩

/-- Once the target user is known, the next request of Create is the add-member
call for that user. -/
theorem create_calls_after_target {σ : Type} (pkg : Package) (api : API σ)
    (d : GroupMembershipData) (c c₁ : Conn σ) (userId : Int)
    (hres : targetUserId pkg api d c = (.ok userId, c₁)) :
    ∃ rest : List Call,
      (resourceGitlabGroupMembershipCreate pkg api d c).2.2.calls
        = c₁.calls ++
            Call.AddGroupMember d.group_id
              { UserID := some userId,
                AccessLevel := some (pkg.accessLevelNameToValue d.access_level),
                ExpiresAt := some d.expires_at } :: rest := by
  rcases hadd : api.AddGroupMember d.group_id
      { UserID := some userId, AccessLevel := some (pkg.accessLevelNameToValue d.access_level),
        ExpiresAt := some d.expires_at } c₁.world with ⟨resp, err, w⟩
  cases err with
  | none =>
    obtain ⟨rest, hrest, _⟩ := membership_read_calls pkg api
      { d with Id := buildTwoPartID d.group_id (strconv.Itoa userId) }
      { world := w,
        calls := c₁.calls ++
          [Call.AddGroupMember d.group_id
            { UserID := some userId,
              AccessLevel := some (pkg.accessLevelNameToValue d.access_level),
              ExpiresAt := some d.expires_at }] }
    refine ⟨rest, ?_⟩
    simp only [resourceGitlabGroupMembershipCreate, hres, client.GroupMembers.AddGroupMember,
      hadd, Option.isSome_none, Bool.false_eq_true, if_false]
    rw [hrest]
    simp
  | some err =>
    rcases hcur : api.CurrentUser w with ⟨user, cerr, w₃⟩
    cases cerr with
    | some cerr =>
      exact ⟨[Call.CurrentUser], by
        simp [resourceGitlabGroupMembershipCreate, hres, client.GroupMembers.AddGroupMember,
          hadd, client.Users.CurrentUser, hcur]⟩
    | none =>
      by_cases hcond : (resp.map (fun r => r.StatusCode)) = some http.StatusConflict
          ∧ user.ID = userId
      · rcases hedit : api.EditGroupMember d.group_id userId
            { AccessLevel := some (pkg.accessLevelNameToValue d.access_level),
              ExpiresAt := some d.expires_at } w₃ with ⟨eerr, w₄⟩
        cases eerr with
        | some eerr =>
          exact ⟨[Call.CurrentUser, Call.EditGroupMember d.group_id userId
              { AccessLevel := some (pkg.accessLevelNameToValue d.access_level),
                ExpiresAt := some d.expires_at }], by
            simp only [resourceGitlabGroupMembershipCreate, hres,
              client.GroupMembers.AddGroupMember, hadd, client.Users.CurrentUser, hcur,
              client.GroupMembers.EditGroupMember, hedit, hcond]
            simp⟩
        | none =>
          obtain ⟨rest, hrest, _⟩ := membership_read_calls pkg api
            { d with Id := buildTwoPartID d.group_id (strconv.Itoa userId) }
            { world := w₄,
              calls := c₁.calls ++
                [Call.AddGroupMember d.group_id
                  { UserID := some userId,
                    AccessLevel := some (pkg.accessLevelNameToValue d.access_level),
                    ExpiresAt := some d.expires_at }] ++ [Call.CurrentUser] ++
                [Call.EditGroupMember d.group_id userId
                  { AccessLevel := some (pkg.accessLevelNameToValue d.access_level),
                    ExpiresAt := some d.expires_at }] }
          refine ⟨Call.CurrentUser :: Call.EditGroupMember d.group_id userId
              { AccessLevel := some (pkg.accessLevelNameToValue d.access_level),
                ExpiresAt := some d.expires_at } :: rest, ?_⟩
          simp only [resourceGitlabGroupMembershipCreate, hres,
            client.GroupMembers.AddGroupMember, hadd, client.Users.CurrentUser, hcur,
            client.GroupMembers.EditGroupMember, hedit, hcond]
          simp only [Option.isSome_some, Option.isSome_none, if_true, Bool.false_eq_true,
            if_false, and_self]
          rw [hrest]
          simp
      · exact ⟨[Call.CurrentUser], by
          simp only [resourceGitlabGroupMembershipCreate, hres,
            client.GroupMembers.AddGroupMember, hadd, client.Users.CurrentUser, hcur, hcond]
          simp⟩

/-- Once the target user is known, Update issues the edit-member call for that
user, and after it at most fetches of a member. -/
theorem update_calls_after_target {σ : Type} (pkg : Package) (api : API σ)
    (d : GroupMembershipData) (c c₁ : Conn σ) (userId : Int)
    (hres : targetUserId pkg api d c = (.ok userId, c₁)) :
    ∃ rest : List Call,
      (resourceGitlabGroupMembershipUpdate pkg api d c).2.2.calls
        = c₁.calls ++
            Call.EditGroupMember d.group_id userId
              { AccessLevel := some (pkg.accessLevelNameToValue (pkg.ToLower d.access_level)),
                ExpiresAt := some d.expires_at } :: rest ∧
      ∀ x ∈ rest, ∃ g u, x = Call.GetGroupMember g u := by
  rcases hedit : api.EditGroupMember d.group_id userId
      { AccessLevel := some (pkg.accessLevelNameToValue (pkg.ToLower d.access_level)),
        ExpiresAt := some d.expires_at } c₁.world with ⟨err, w⟩
  cases err with
  | some err =>
    exact ⟨[], by
      simp [resourceGitlabGroupMembershipUpdate, hres, client.GroupMembers.EditGroupMember,
        hedit]⟩
  | none =>
    obtain ⟨rest, hrest, hall⟩ := membership_read_calls pkg api d
      { world := w,
        calls := c₁.calls ++
          [Call.EditGroupMember d.group_id userId
            { AccessLevel := some (pkg.accessLevelNameToValue (pkg.ToLower d.access_level)),
              ExpiresAt := some d.expires_at }] }
    refine ⟨rest, ?_, hall⟩
    simp only [resourceGitlabGroupMembershipUpdate, hres, client.GroupMembers.EditGroupMember,
      hedit, Option.isSome_none, Bool.false_eq_true, if_false]
    rw [hrest]
    simp

/-! ## Claims -/

/-- C4: for a group id without the `:` delimiter and a user id in the range of a
Go `int`, decoding the identifier that Create and Read synthesize,
`groupIdAndUserIdFromId (buildTwoPartID groupId (strconv.Itoa userId))`, gives
back exactly `(groupId, userId)` and a nil error. -/
theorem group_membership_id_roundtrip (groupId : String) (userId : Int)
    (hg : ':' ∉ groupId.data) (hlo : -(2 ^ 63) ≤ userId) (hhi : userId < 2 ^ 63) :
    groupIdAndUserIdFromId (buildTwoPartID groupId (strconv.Itoa userId))
      = (groupId, userId, none) :=
  decode_encode groupId userId hg hlo hhi

theorem group_membership_id_roundtrip_witness :
    groupIdAndUserIdFromId (buildTwoPartID "my-group" (strconv.Itoa (-9223372036854775808)))
      = ("my-group", -9223372036854775808, none) :=
  group_membership_id_roundtrip "my-group" (-9223372036854775808)
    (by decide) (by decide) (by decide)

/-- C1: at a concrete refusal the add-member error is lost. The server answers
the add-member call with 403 Forbidden and the current-user lookup succeeds
(acting user 1, target user 7): Create returns nil diagnostics, not a failure
carrying "403 Forbidden"; it stores no identifier and issues no further call. -/
theorem create_loses_add_member_error :
    forbiddingServer.AddGroupMember "grp"
        { UserID := some 7, AccessLevel := some 30, ExpiresAt := some "2030-01-01" } ()
      = (some { StatusCode := 403 }, some (statusError "403 Forbidden" 403), ()) ∧
    forbiddingServer.CurrentUser () = ({ ID := 1, Username := "root" }, none, ()) ∧
    resourceGitlabGroupMembershipCreate sampleTables forbiddingServer membershipById freshConn
      = ([], membershipById,
          { world := (),
            calls := [Call.AddGroupMember "grp"
                        { UserID := some 7, AccessLevel := some 30,
                          ExpiresAt := some "2030-01-01" },
                      Call.CurrentUser] }) := by
  decide

/-- C2: when the add-member call fails with HTTP 409 and the current-user lookup
succeeds with the id of the target user, Create issues an edit-member call for
the same group and user whose payload is exactly the requested access-level
code and the requested expires_at. If that call succeeds, Create stores the
identifier `buildTwoPartID group_id (Itoa userId)` and its outcome is that of
Read on the record so identified (the conflict is not reported); if it fails,
Create returns that error and stores nothing. -/
theorem create_conflict_falls_back_to_edit {σ : Type} (pkg : Package) (api : API σ)
    (d : GroupMembershipData) (c c₁ : Conn σ) (userId : Int)
    (resp : Response) (addErr : Error) (w₂ w₃ : σ) (user : User)
    (hres : targetUserId pkg api d c = (.ok userId, c₁))
    (hadd : api.AddGroupMember d.group_id
        { UserID := some userId, AccessLevel := some (pkg.accessLevelNameToValue d.access_level),
          ExpiresAt := some d.expires_at } c₁.world = (some resp, some addErr, w₂))
    (hconf : resp.StatusCode = http.StatusConflict)
    (hcur : api.CurrentUser w₂ = (user, none, w₃))
    (hid : user.ID = userId) :
    (∀ w₄ : σ,
      api.EditGroupMember d.group_id userId
          { AccessLevel := some (pkg.accessLevelNameToValue d.access_level),
            ExpiresAt := some d.expires_at } w₃ = (none, w₄) →
      resourceGitlabGroupMembershipCreate pkg api d c
        = resourceGitlabGroupMembershipRead pkg api
            { d with Id := buildTwoPartID d.group_id (strconv.Itoa userId) }
            { world := w₄,
              calls := c₁.calls ++
                [Call.AddGroupMember d.group_id
                   { UserID := some userId,
                     AccessLevel := some (pkg.accessLevelNameToValue d.access_level),
                     ExpiresAt := some d.expires_at },
                 Call.CurrentUser,
                 Call.EditGroupMember d.group_id userId
                   { AccessLevel := some (pkg.accessLevelNameToValue d.access_level),
                     ExpiresAt := some d.expires_at }] }) ∧
    (∀ (editErr : Error) (w₄ : σ),
      api.EditGroupMember d.group_id userId
          { AccessLevel := some (pkg.accessLevelNameToValue d.access_level),
            ExpiresAt := some d.expires_at } w₃ = (some editErr, w₄) →
      resourceGitlabGroupMembershipCreate pkg api d c
        = ([{ Summary := editErr.msg }], d,
            { world := w₄,
              calls := c₁.calls ++
                [Call.AddGroupMember d.group_id
                   { UserID := some userId,
                     AccessLevel := some (pkg.accessLevelNameToValue d.access_level),
                     ExpiresAt := some d.expires_at },
                 Call.CurrentUser,
                 Call.EditGroupMember d.group_id userId
                   { AccessLevel := some (pkg.accessLevelNameToValue d.access_level),
                     ExpiresAt := some d.expires_at }] })) := by
  constructor
  · intro w₄ hedit
    simp [resourceGitlabGroupMembershipCreate, hres, client.GroupMembers.AddGroupMember, hadd,
      client.Users.CurrentUser, hcur, hconf, hid, client.GroupMembers.EditGroupMember, hedit]
  · intro editErr w₄ hedit
    simp [resourceGitlabGroupMembershipCreate, hres, client.GroupMembers.AddGroupMember, hadd,
      client.Users.CurrentUser, hcur, hconf, hid, client.GroupMembers.EditGroupMember, hedit,
      diag.FromErr]

theorem create_conflict_falls_back_to_edit_witness :
    resourceGitlabGroupMembershipCreate sampleTables ownerServer membershipById freshConn
      = resourceGitlabGroupMembershipRead sampleTables ownerServer
          { membershipById with Id := buildTwoPartID "grp" (strconv.Itoa 7) }
          { world := (),
            calls := [Call.AddGroupMember "grp"
                        { UserID := some 7, AccessLevel := some 30,
                          ExpiresAt := some "2030-01-01" },
                      Call.CurrentUser,
                      Call.EditGroupMember "grp" 7
                        { AccessLevel := some 30, ExpiresAt := some "2030-01-01" }] } :=
  (create_conflict_falls_back_to_edit sampleTables ownerServer membershipById freshConn freshConn
    7 { StatusCode := 409 } (statusError "409 Conflict" 409) () ()
    { ID := 7, Username := "alice" } rfl (by decide) (by decide) (by decide)
    (by decide)).1 () (by decide)

/-- C3: for both resources and every identifier that decodes, when the fetch in
Read fails with a "not found" error (is404), Read returns nil diagnostics and
the record with the identifier set to the empty string and nothing else
changed; when the fetch fails with any other error, Read returns a failure and
the record as it was, identifier included. In both cases the fetch is the only
request issued. -/
theorem read_not_found_clears_identifier {σ : Type} (pkg : Package) (api : API σ)
    (c : Conn σ) :
    (∀ (d : GroupMembershipData) (groupId : String) (userId : Int) (m : GroupMember)
        (err : Error) (w : σ),
      groupIdAndUserIdFromId d.Id = (groupId, userId, none) →
      api.GetGroupMember groupId userId c.world = (m, some err, w) →
      (is404 (some err) = true →
        resourceGitlabGroupMembershipRead pkg api d c
          = ([], { d with Id := "" },
              { world := w, calls := c.calls ++ [Call.GetGroupMember groupId userId] })) ∧
      (is404 (some err) = false →
        (resourceGitlabGroupMembershipRead pkg api d c).1 ≠ [] ∧
        resourceGitlabGroupMembershipRead pkg api d c
          = ([{ Summary := err.msg }], d,
              { world := w, calls := c.calls ++ [Call.GetGroupMember groupId userId] }))) ∧
    (∀ (d : ProjectLevelMRApprovalsData) (projectId : Int) (a : ProjectApprovals)
        (err : Error) (w : σ),
      strconv.Atoi d.Id = (projectId, none) →
      api.GetApprovalConfiguration (ProjectRef.int projectId) c.world = (a, some err, w) →
      (is404 (some err) = true →
        resourceGitlabProjectLevelMRApprovalsRead api d c
          = ([], { d with Id := "" },
              { world := w,
                calls := c.calls ++ [Call.GetApprovalConfiguration (ProjectRef.int projectId)] })) ∧
      (is404 (some err) = false →
        (resourceGitlabProjectLevelMRApprovalsRead api d c).1 ≠ [] ∧
        resourceGitlabProjectLevelMRApprovalsRead api d c
          = ([{ Summary := "couldn't read approval configuration: " ++ err.msg }], d,
              { world := w,
                calls := c.calls ++
                  [Call.GetApprovalConfiguration (ProjectRef.int projectId)] }))) := by
  refine ⟨?_, ?_⟩
  · intro d groupId userId m err w hdec hget
    refine ⟨?_, ?_⟩
    · intro h404
      simp [resourceGitlabGroupMembershipRead, hdec, client.GroupMembers.GetGroupMember, hget,
        h404]
    · intro h404
      simp [resourceGitlabGroupMembershipRead, hdec, client.GroupMembers.GetGroupMember, hget,
        h404, diag.FromErr]
  · intro d projectId a err w hdec hget
    refine ⟨?_, ?_⟩
    · intro h404
      simp [resourceGitlabProjectLevelMRApprovalsRead, hdec,
        client.Projects.GetApprovalConfiguration, hget, h404]
    · intro h404
      simp [resourceGitlabProjectLevelMRApprovalsRead, hdec,
        client.Projects.GetApprovalConfiguration, hget, h404, diag.Errorf]

theorem read_not_found_clears_identifier_witness :
    resourceGitlabGroupMembershipRead sampleTables goneServer
        { membershipById with Id := "grp:7" } freshConn
      = ([], { membershipById with Id := "" },
          { world := (), calls := [Call.GetGroupMember "grp" 7] }) ∧
    resourceGitlabProjectLevelMRApprovalsRead goneServer approvalsOfProject12 freshConn
      = ([], { approvalsOfProject12 with Id := "" },
          { world := (), calls := [Call.GetApprovalConfiguration (ProjectRef.int 12)] }) :=
  ⟨((read_not_found_clears_identifier sampleTables goneServer freshConn).1
      { membershipById with Id := "grp:7" } "grp" 7
      { ID := 7, Username := "", AccessLevel := 0, ExpiresAt := none }
      (statusError "404 Not Found" 404) () (by decide) (by decide)).1 (by decide),
   ((read_not_found_clears_identifier sampleTables goneServer freshConn).2
      approvalsOfProject12 12
      { ResetApprovalsOnPush := false, DisableOverridingApproversPerMergeRequest := false,
        MergeRequestsAuthorApproval := false, MergeRequestsDisableCommittersApproval := false,
        RequirePasswordToApprove := false }
      (statusError "404 Not Found" 404) () (by decide) (by decide)).1 (by decide)⟩

/-- C7, as the code has it: for every identifier that decodes, Delete returns a
failure exactly when the remove-member call fails, whatever the failure: the
diagnostics are those of the call's error, and a "not found" answer is
reported like any other. -/
theorem delete_reports_every_failure {σ : Type} (api : API σ) (d : GroupMembershipData)
    (c : Conn σ) (groupId : String) (userId : Int) (err : Option Error) (w : σ)
    (hdec : groupIdAndUserIdFromId d.Id = (groupId, userId, none))
    (hrem : api.RemoveGroupMember groupId userId
        { SkipSubresources := some d.skip_subresources_on_destroy,
          UnassignIssuables := some d.unassign_issuables_on_destroy } c.world = (err, w)) :
    (resourceGitlabGroupMembershipDelete api d c).1 = diag.FromErr err ∧
    ((resourceGitlabGroupMembershipDelete api d c).1 ≠ [] ↔ err ≠ none) := by
  cases err with
  | none =>
    simp [resourceGitlabGroupMembershipDelete, hdec, client.GroupMembers.RemoveGroupMember,
      hrem, diag.FromErr]
  | some e =>
    simp [resourceGitlabGroupMembershipDelete, hdec, client.GroupMembers.RemoveGroupMember,
      hrem, diag.FromErr]

theorem delete_reports_every_failure_witness :
    (resourceGitlabGroupMembershipDelete calmServer
        { membershipById with Id := "grp:7" } freshConn).1 = diag.FromErr none ∧
    ((resourceGitlabGroupMembershipDelete calmServer
        { membershipById with Id := "grp:7" } freshConn).1 ≠ [] ↔ (none : Option Error) ≠ none) :=
  delete_reports_every_failure calmServer { membershipById with Id := "grp:7" } freshConn
    "grp" 7 none () (by decide) (by decide)

/-- C7 fails as stated: the removal call answers 404 Not Found (is404 holds of
the error) for an identifier that decodes, and Delete returns a failure
carrying that error. -/
theorem delete_not_found_is_reported :
    groupIdAndUserIdFromId "grp:7" = ("grp", 7, none) ∧
    goneServer.RemoveGroupMember "grp" 7
        { SkipSubresources := some false, UnassignIssuables := some true } ()
      = (some (statusError "404 Not Found" 404), ()) ∧
    is404 (some (statusError "404 Not Found" 404)) = true ∧
    (resourceGitlabGroupMembershipDelete goneServer
        { membershipById with Id := "grp:7" } freshConn).1
      = [{ Summary := "404 Not Found" }] := by
  decide

/-- C10: for every identifier that decodes to `(groupId, userId)` and whatever the
two destroy-time flags are, Delete issues exactly one request, a remove-member
call addressed to `(groupId, userId)` whose SkipSubresources and
UnassignIssuables are the two configured values. -/
theorem delete_forwards_destroy_flags {σ : Type} (api : API σ) (d : GroupMembershipData)
    (c : Conn σ) (groupId : String) (userId : Int)
    (hdec : groupIdAndUserIdFromId d.Id = (groupId, userId, none)) :
    (resourceGitlabGroupMembershipDelete api d c).2.2.calls
      = c.calls ++
          [Call.RemoveGroupMember groupId userId
            { SkipSubresources := some d.skip_subresources_on_destroy,
              UnassignIssuables := some d.unassign_issuables_on_destroy }] := by
  cases h : (api.RemoveGroupMember groupId userId
        { SkipSubresources := some d.skip_subresources_on_destroy,
          UnassignIssuables := some d.unassign_issuables_on_destroy } c.world) with
  | mk err w =>
    cases err <;>
      simp [resourceGitlabGroupMembershipDelete, hdec, client.GroupMembers.RemoveGroupMember, h]

theorem delete_forwards_destroy_flags_witness :
    (resourceGitlabGroupMembershipDelete calmServer
        { membershipById with Id := "grp:7" } freshConn).2.2.calls
      = [Call.RemoveGroupMember "grp" 7
          { SkipSubresources := some false, UnassignIssuables := some true }] :=
  delete_forwards_destroy_flags calmServer { membershipById with Id := "grp:7" } freshConn
    "grp" 7 (by decide)

/-- C5, as the code has it: when neither user_id nor username is set, Create and
Update return a failure, issue no request and leave the record as it was.
When username is set, whether or not user_id is set as well, the handler does
not refuse: its first request is the user lookup for the lower-cased name. -/
theorem identity_inputs_in_handler {σ : Type} (pkg : Package) (api : API σ)
    (d : GroupMembershipData) (c : Conn σ) :
    (d.GetOk_user_id.2 = false → d.GetOk_username.2 = false →
      resourceGitlabGroupMembershipCreate pkg api d c
        = ([{ Summary := "one and only one of user_id or username must be set" }], d, c) ∧
      resourceGitlabGroupMembershipUpdate pkg api d c
        = ([{ Summary := "one and only one of user_id or username must be set" }], d, c)) ∧
    (d.GetOk_username.2 = true →
      (∃ rest : List Call,
        (resourceGitlabGroupMembershipCreate pkg api d c).2.2.calls
          = c.calls ++ Call.ListUsers { Username := some (pkg.ToLower d.username) } :: rest) ∧
      (∃ rest : List Call,
        (resourceGitlabGroupMembershipUpdate pkg api d c).2.2.calls
          = c.calls ++ Call.ListUsers { Username := some (pkg.ToLower d.username) } :: rest)) := by
  refine ⟨?_, ?_⟩
  · intro hid hname
    have ht : targetUserId pkg api d c
        = (.error [{ Summary := "one and only one of user_id or username must be set" }], c) := by
      simp only [GroupMembershipData.GetOk_user_id, GroupMembershipData.GetOk_username] at hid hname
      simp [targetUserId, GroupMembershipData.GetOk_user_id, GroupMembershipData.GetOk_username,
        hid, hname, diag.FromErr]
    simp [resourceGitlabGroupMembershipCreate, resourceGitlabGroupMembershipUpdate, ht]
  · intro hname
    simp only [GroupMembershipData.GetOk_username] at hname
    rcases hlu : api.ListUsers { Username := some (pkg.ToLower d.username) } c.world
      with ⟨users, err, w⟩
    have hcases :
        (∃ ds, targetUserId pkg api d c
            = (.error ds,
                { world := w,
                  calls := c.calls ++
                    [Call.ListUsers { Username := some (pkg.ToLower d.username) }] })) ∨
        (∃ u, targetUserId pkg api d c
            = (.ok u,
                { world := w,
                  calls := c.calls ++
                    [Call.ListUsers { Username := some (pkg.ToLower d.username) }] })) := by
      cases err with
      | some err =>
        left
        exact ⟨diag.FromErr (some err), by
          simp [targetUserId, GroupMembershipData.GetOk_user_id,
            GroupMembershipData.GetOk_username, hname, client.Users.ListUsers, hlu]⟩
      | none =>
        match users, hlu with
        | [], hlu =>
          left
          exact ⟨diag.FromErr
              (fmt.Errorf "couldn't find a user matching: " (pkg.ToLower d.username)), by
            simp [targetUserId, GroupMembershipData.GetOk_user_id,
              GroupMembershipData.GetOk_username, hname, client.Users.ListUsers, hlu]⟩
        | [u], hlu =>
          right
          exact ⟨u.ID, by
            simp [targetUserId, GroupMembershipData.GetOk_user_id,
              GroupMembershipData.GetOk_username, hname, client.Users.ListUsers, hlu]⟩
        | _ :: _ :: _, hlu =>
          left
          exact ⟨diag.FromErr
              (fmt.Errorf "more than one user found matching: " (pkg.ToLower d.username)), by
            simp [targetUserId, GroupMembershipData.GetOk_user_id,
              GroupMembershipData.GetOk_username, hname, client.Users.ListUsers, hlu]⟩
    rcases hcases with ⟨ds, ht⟩ | ⟨u, ht⟩
    · exact ⟨⟨[], by simp [resourceGitlabGroupMembershipCreate, ht]⟩,
        ⟨[], by simp [resourceGitlabGroupMembershipUpdate, ht]⟩⟩
    · obtain ⟨r₁, h₁⟩ := create_calls_after_target pkg api d c _ u ht
      obtain ⟨r₂, h₂, _⟩ := update_calls_after_target pkg api d c _ u ht
      exact ⟨⟨Call.AddGroupMember d.group_id
            { UserID := some u, AccessLevel := some (pkg.accessLevelNameToValue d.access_level),
              ExpiresAt := some d.expires_at } :: r₁, by rw [h₁]; simp⟩,
        ⟨Call.EditGroupMember d.group_id u
            { AccessLevel := some (pkg.accessLevelNameToValue (pkg.ToLower d.access_level)),
              ExpiresAt := some d.expires_at } :: r₂, by rw [h₂]; simp⟩⟩

theorem identity_inputs_in_handler_witness :
    resourceGitlabGroupMembershipCreate sampleTables calmServer
        { membershipById with user_id := 0 } freshConn
      = ([{ Summary := "one and only one of user_id or username must be set" }],
          { membershipById with user_id := 0 }, freshConn) ∧
    resourceGitlabGroupMembershipUpdate sampleTables calmServer
        { membershipById with user_id := 0 } freshConn
      = ([{ Summary := "one and only one of user_id or username must be set" }],
          { membershipById with user_id := 0 }, freshConn) :=
  (identity_inputs_in_handler sampleTables calmServer { membershipById with user_id := 0 }
    freshConn).1 (by decide) (by decide)

/-- C5 fails as stated: with user_id 7 and username "Alice" both set, Create
does not return a failure and issues three requests, the first of them the
lookup of "alice"; Update likewise goes on to the lookup and the edit. -/
theorem both_identity_inputs_accepted :
    ({ membershipById with username := "Alice" } : GroupMembershipData).GetOk_user_id.2 = true ∧
    ({ membershipById with username := "Alice" } : GroupMembershipData).GetOk_username.2 = true ∧
    (resourceGitlabGroupMembershipCreate sampleTables calmServer
        { membershipById with username := "Alice" } freshConn).1 = [] ∧
    (resourceGitlabGroupMembershipCreate sampleTables calmServer
        { membershipById with username := "Alice" } freshConn).2.2.calls
      = [Call.ListUsers { Username := some "alice" },
         Call.AddGroupMember "grp"
           { UserID := some 7, AccessLevel := some 30, ExpiresAt := some "2030-01-01" },
         Call.GetGroupMember "grp" 7] ∧
    (resourceGitlabGroupMembershipUpdate sampleTables calmServer
        { membershipById with Id := "grp:7", username := "Alice" } freshConn).1 = [] ∧
    (resourceGitlabGroupMembershipUpdate sampleTables calmServer
        { membershipById with Id := "grp:7", username := "Alice" } freshConn).2.2.calls
      = [Call.ListUsers { Username := some "alice" },
         Call.EditGroupMember "grp" 7
           { AccessLevel := some 30, ExpiresAt := some "2030-01-01" },
         Call.GetGroupMember "grp" 7] := by
  decide

/-- C6: in Create and Update, when username is set and the user lookup succeeds,
the handler goes on exactly when the lookup returned one user: then the target
is that user's id and the next request is the add-member call (Create) or the
edit-member call (Update) for that id; with no user or more than one, the
handler returns a failure, leaves the record as it was, and the lookup is the
only request it issued. -/
theorem username_lookup_needs_one_match {σ : Type} (pkg : Package) (api : API σ)
    (d : GroupMembershipData) (c : Conn σ) (users : List User) (w : σ)
    (hname : d.GetOk_username.2 = true)
    (hlu : api.ListUsers { Username := some (pkg.ToLower d.username) } c.world
      = (users, none, w)) :
    (∀ u : User, users = [u] →
      targetUserId pkg api d c
        = (.ok u.ID,
            { world := w,
              calls := c.calls ++
                [Call.ListUsers { Username := some (pkg.ToLower d.username) }] }) ∧
      (∃ rest : List Call,
        (resourceGitlabGroupMembershipCreate pkg api d c).2.2.calls
          = c.calls ++
              Call.ListUsers { Username := some (pkg.ToLower d.username) } ::
              Call.AddGroupMember d.group_id
                { UserID := some u.ID,
                  AccessLevel := some (pkg.accessLevelNameToValue d.access_level),
                  ExpiresAt := some d.expires_at } :: rest) ∧
      (∃ rest : List Call,
        (resourceGitlabGroupMembershipUpdate pkg api d c).2.2.calls
          = c.calls ++
              Call.ListUsers { Username := some (pkg.ToLower d.username) } ::
              Call.EditGroupMember d.group_id u.ID
                { AccessLevel := some (pkg.accessLevelNameToValue (pkg.ToLower d.access_level)),
                  ExpiresAt := some d.expires_at } :: rest)) ∧
    (users.length ≠ 1 →
      (resourceGitlabGroupMembershipCreate pkg api d c).1 ≠ [] ∧
      (resourceGitlabGroupMembershipCreate pkg api d c).2
        = (d, { world := w,
                calls := c.calls ++
                  [Call.ListUsers { Username := some (pkg.ToLower d.username) }] }) ∧
      (resourceGitlabGroupMembershipUpdate pkg api d c).1 ≠ [] ∧
      (resourceGitlabGroupMembershipUpdate pkg api d c).2
        = (d, { world := w,
                calls := c.calls ++
                  [Call.ListUsers { Username := some (pkg.ToLower d.username) }] })) := by
  simp only [GroupMembershipData.GetOk_username] at hname
  refine ⟨?_, ?_⟩
  · intro u hu
    subst hu
    have ht : targetUserId pkg api d c
        = (.ok u.ID,
            { world := w,
              calls := c.calls ++
                [Call.ListUsers { Username := some (pkg.ToLower d.username) }] }) := by
      simp [targetUserId, GroupMembershipData.GetOk_user_id,
        GroupMembershipData.GetOk_username, hname, client.Users.ListUsers, hlu]
    obtain ⟨r₁, h₁⟩ := create_calls_after_target pkg api d c _ u.ID ht
    obtain ⟨r₂, h₂, _⟩ := update_calls_after_target pkg api d c _ u.ID ht
    exact ⟨ht, ⟨r₁, by rw [h₁]; simp⟩, ⟨r₂, by rw [h₂]; simp⟩⟩
  · intro hlen
    have ht : ∃ ds, ds ≠ [] ∧ targetUserId pkg api d c
        = (.error ds,
            { world := w,
              calls := c.calls ++
                [Call.ListUsers { Username := some (pkg.ToLower d.username) }] }) := by
      match users, hlu, hlen with
      | [], hlu, _ =>
        exact ⟨diag.FromErr
            (fmt.Errorf "couldn't find a user matching: " (pkg.ToLower d.username)),
          by simp [diag.FromErr, fmt.Errorf], by
          simp [targetUserId, GroupMembershipData.GetOk_user_id,
            GroupMembershipData.GetOk_username, hname, client.Users.ListUsers, hlu]⟩
      | [u], _, hlen => exact absurd rfl hlen
      | _ :: _ :: _, hlu, _ =>
        exact ⟨diag.FromErr
            (fmt.Errorf "more than one user found matching: " (pkg.ToLower d.username)),
          by simp [diag.FromErr, fmt.Errorf], by
          simp [targetUserId, GroupMembershipData.GetOk_user_id,
            GroupMembershipData.GetOk_username, hname, client.Users.ListUsers, hlu]⟩
    obtain ⟨ds, hds, ht⟩ := ht
    simp [resourceGitlabGroupMembershipCreate, resourceGitlabGroupMembershipUpdate, ht, hds]

theorem username_lookup_needs_one_match_witness :
    targetUserId sampleTables calmServer
        { membershipById with user_id := 0, username := "Alice" } freshConn
      = (.ok 7, { world := (), calls := [Call.ListUsers { Username := some "alice" }] }) :=
  ((username_lookup_needs_one_match sampleTables calmServer
      { membershipById with user_id := 0, username := "Alice" } freshConn
      [{ ID := 7, Username := "alice" }] () (by decide) (by decide)).1
    { ID := 7, Username := "alice" } rfl).1

/-- C8, as the code has it: for a malformed identifier (a membership identifier
that is not "group part without delimiter, delimiter, decimal integer"; an
approvals identifier that is not a decimal integer), group-membership Read and
Delete and MR-approvals Read return a failure, issue no request and leave the
record as it was. MR-approvals Update and Delete do not decode the identifier:
whatever it is, the change-configuration request is issued, addressed with
the identifier text as it stands. -/
theorem malformed_identifier_handling {σ : Type} (pkg : Package) (api : API σ) (c : Conn σ) :
    (∀ d : GroupMembershipData, ¬ WellFormedMembershipId d.Id →
      (resourceGitlabGroupMembershipRead pkg api d c).1 ≠ [] ∧
      (resourceGitlabGroupMembershipRead pkg api d c).2 = (d, c) ∧
      (resourceGitlabGroupMembershipDelete api d c).1 ≠ [] ∧
      (resourceGitlabGroupMembershipDelete api d c).2 = (d, c)) ∧
    (∀ d : ProjectLevelMRApprovalsData, isDecimalInteger d.Id.data = false →
      (resourceGitlabProjectLevelMRApprovalsRead api d c).1 ≠ [] ∧
      (resourceGitlabProjectLevelMRApprovalsRead api d c).2 = (d, c) ∧
      (∃ rest : List Call,
        (resourceGitlabProjectLevelMRApprovalsUpdate api d c).2.2.calls
          = c.calls ++
              Call.ChangeApprovalConfiguration (ProjectRef.str d.Id) (updateOptions d) :: rest) ∧
      (resourceGitlabProjectLevelMRApprovalsDelete api d c).2.2.calls
        = c.calls ++
            [Call.ChangeApprovalConfiguration (ProjectRef.str d.Id)
              { ResetApprovalsOnPush := some true,
                DisableOverridingApproversPerMergeRequest := some false,
                MergeRequestsAuthorApproval := some false,
                MergeRequestsDisableCommittersApproval := some false,
                RequirePasswordToApprove := some false }]) := by
  refine ⟨?_, ?_⟩
  · intro d hbad
    rcases hdec : groupIdAndUserIdFromId d.Id with ⟨g, u, e⟩
    cases e with
    | none =>
      exact absurd (wellFormed_of_decodes d.Id (by rw [hdec])) hbad
    | some e =>
      simp [resourceGitlabGroupMembershipRead, resourceGitlabGroupMembershipDelete, hdec,
        diag.FromErr]
  · intro d hbad
    refine ⟨?_, ?_, ?_, ?_⟩
    · rcases hdec : strconv.Atoi d.Id with ⟨p, e⟩
      cases e with
      | none =>
        have := isDecimalInteger_of_atoi d.Id (by rw [hdec])
        rw [hbad] at this
        exact absurd this (by decide)
      | some e => simp [resourceGitlabProjectLevelMRApprovalsRead, hdec, diag.Errorf]
    · rcases hdec : strconv.Atoi d.Id with ⟨p, e⟩
      cases e with
      | none =>
        have := isDecimalInteger_of_atoi d.Id (by rw [hdec])
        rw [hbad] at this
        exact absurd this (by decide)
      | some e => simp [resourceGitlabProjectLevelMRApprovalsRead, hdec]
    · rcases hch : api.ChangeApprovalConfiguration (ProjectRef.str d.Id) (updateOptions d)
        c.world with ⟨err, w⟩
      cases err with
      | some err =>
        exact ⟨[], by
          simp [resourceGitlabProjectLevelMRApprovalsUpdate,
            client.Projects.ChangeApprovalConfiguration, hch]⟩
      | none =>
        obtain ⟨rest, hrest, _⟩ := approvals_read_calls api d
          { world := w,
            calls := c.calls ++
              [Call.ChangeApprovalConfiguration (ProjectRef.str d.Id) (updateOptions d)] }
        refine ⟨rest, ?_⟩
        simp only [resourceGitlabProjectLevelMRApprovalsUpdate,
          client.Projects.ChangeApprovalConfiguration, hch, Option.isSome_none,
          Bool.false_eq_true, if_false]
        rw [hrest]
        simp
    · rcases hch : api.ChangeApprovalConfiguration (ProjectRef.str d.Id)
        { ResetApprovalsOnPush := some true,
          DisableOverridingApproversPerMergeRequest := some false,
          MergeRequestsAuthorApproval := some false,
          MergeRequestsDisableCommittersApproval := some false,
          RequirePasswordToApprove := some false } c.world with ⟨err, w⟩
      cases err <;>
        simp [resourceGitlabProjectLevelMRApprovalsDelete,
          client.Projects.ChangeApprovalConfiguration, hch]

theorem malformed_identifier_handling_witness :
    (resourceGitlabProjectLevelMRApprovalsRead calmServer
        { approvalsOfProject12 with Id := "twelve" } freshConn).1 ≠ [] ∧
    (resourceGitlabProjectLevelMRApprovalsRead calmServer
        { approvalsOfProject12 with Id := "twelve" } freshConn).2
      = ({ approvalsOfProject12 with Id := "twelve" }, freshConn) :=
  ⟨((malformed_identifier_handling sampleTables calmServer freshConn).2
      { approvalsOfProject12 with Id := "twelve" } (by decide)).1,
   ((malformed_identifier_handling sampleTables calmServer freshConn).2
      { approvalsOfProject12 with Id := "twelve" } (by decide)).2.1⟩

/-- C8 fails as stated: with the identifier "twelve", which is not a decimal
integer, MR-approvals Delete returns nil diagnostics after issuing the
change-configuration request for "twelve", and MR-approvals Update issues its
request as well before the Read it ends with reports the identifier. -/
theorem approvals_update_delete_send_malformed_identifier :
    isDecimalInteger "twelve".data = false ∧
    resourceGitlabProjectLevelMRApprovalsDelete calmServer
        { approvalsOfProject12 with Id := "twelve" } freshConn
      = ([], { approvalsOfProject12 with Id := "twelve" },
          { world := (),
            calls := [Call.ChangeApprovalConfiguration (ProjectRef.str "twelve")
              { ResetApprovalsOnPush := some true,
                DisableOverridingApproversPerMergeRequest := some false,
                MergeRequestsAuthorApproval := some false,
                MergeRequestsDisableCommittersApproval := some false,
                RequirePasswordToApprove := some false }] }) ∧
    (resourceGitlabProjectLevelMRApprovalsUpdate calmServer
        { approvalsOfProject12 with Id := "twelve" } freshConn).2.2.calls
      = [Call.ChangeApprovalConfiguration (ProjectRef.str "twelve")
          { ResetApprovalsOnPush := some true,
            DisableOverridingApproversPerMergeRequest := none,
            MergeRequestsAuthorApproval := none,
            MergeRequestsDisableCommittersApproval := none,
            RequirePasswordToApprove := none }] := by
  decide

/-- C9: the update payloads. In MR-approvals Update each of the five options is
present exactly when its flag differs from the prior state, and then holds the
current value; the options do not depend on project_id or on the identifier;
the change-configuration request carrying them is the one update request of
the handler (only fetches of the configuration may follow). In
group-membership Update, once the target user is known, the one edit-member
request carries the access-level code and expires_at, the two fields the
payload has; group, user and name are no part of it (only fetches of the
member may follow). -/
theorem update_payloads {σ : Type} (pkg : Package) (api : API σ) (c : Conn σ) :
    (∀ d : ProjectLevelMRApprovalsData,
      updateOptions d
        = { ResetApprovalsOnPush :=
              if d.state.reset_approvals_on_push ≠ d.flags.reset_approvals_on_push
              then some d.flags.reset_approvals_on_push else none,
            DisableOverridingApproversPerMergeRequest :=
              if d.state.disable_overriding_approvers_per_merge_request
                  ≠ d.flags.disable_overriding_approvers_per_merge_request
              then some d.flags.disable_overriding_approvers_per_merge_request else none,
            MergeRequestsAuthorApproval :=
              if d.state.merge_requests_author_approval ≠ d.flags.merge_requests_author_approval
              then some d.flags.merge_requests_author_approval else none,
            MergeRequestsDisableCommittersApproval :=
              if d.state.merge_requests_disable_committers_approval
                  ≠ d.flags.merge_requests_disable_committers_approval
              then some d.flags.merge_requests_disable_committers_approval else none,
            RequirePasswordToApprove :=
              if d.state.require_password_to_approve ≠ d.flags.require_password_to_approve
              then some d.flags.require_password_to_approve else none } ∧
      (∀ (id : String) (project : Int),
        updateOptions { d with Id := id, project_id := project } = updateOptions d) ∧
      (∃ rest : List Call,
        (resourceGitlabProjectLevelMRApprovalsUpdate api d c).2.2.calls
          = c.calls ++
              Call.ChangeApprovalConfiguration (ProjectRef.str d.Id) (updateOptions d) :: rest ∧
        ∀ x ∈ rest, ∃ p, x = Call.GetApprovalConfiguration p)) ∧
    (∀ (d : GroupMembershipData) (userId : Int) (c₁ : Conn σ),
      targetUserId pkg api d c = (.ok userId, c₁) →
      ∃ rest : List Call,
        (resourceGitlabGroupMembershipUpdate pkg api d c).2.2.calls
          = c₁.calls ++
              Call.EditGroupMember d.group_id userId
                { AccessLevel := some (pkg.accessLevelNameToValue (pkg.ToLower d.access_level)),
                  ExpiresAt := some d.expires_at } :: rest ∧
        ∀ x ∈ rest, ∃ g u, x = Call.GetGroupMember g u) := by
  refine ⟨?_, ?_⟩
  · intro d
    refine ⟨?_, ?_, ?_⟩
    · obtain ⟨id, p, ⟨f1, f2, f3, f4, f5⟩, ⟨s1, s2, s3, s4, s5⟩⟩ := d
      cases f1 <;> cases f2 <;> cases f3 <;> cases f4 <;> cases f5 <;>
        cases s1 <;> cases s2 <;> cases s3 <;> cases s4 <;> cases s5 <;> rfl
    · intro id project
      rfl
    · rcases hch : api.ChangeApprovalConfiguration (ProjectRef.str d.Id) (updateOptions d)
        c.world with ⟨err, w⟩
      cases err with
      | some err =>
        exact ⟨[], by
          simp [resourceGitlabProjectLevelMRApprovalsUpdate,
            client.Projects.ChangeApprovalConfiguration, hch]⟩
      | none =>
        obtain ⟨rest, hrest, hall⟩ := approvals_read_calls api d
          { world := w,
            calls := c.calls ++
              [Call.ChangeApprovalConfiguration (ProjectRef.str d.Id) (updateOptions d)] }
        refine ⟨rest, ?_, hall⟩
        simp only [resourceGitlabProjectLevelMRApprovalsUpdate,
          client.Projects.ChangeApprovalConfiguration, hch, Option.isSome_none,
          Bool.false_eq_true, if_false]
        rw [hrest]
        simp
  · intro d userId c₁ hres
    exact update_calls_after_target pkg api d c c₁ userId hres

theorem update_payloads_witness :
    ∃ rest : List Call,
      (resourceGitlabGroupMembershipUpdate sampleTables calmServer
          { membershipById with Id := "grp:7" } freshConn).2.2.calls
        = freshConn.calls ++
            Call.EditGroupMember "grp" 7
              { AccessLevel := some 30, ExpiresAt := some "2030-01-01" } :: rest ∧
      ∀ x ∈ rest, ∃ g u, x = Call.GetGroupMember g u :=
  (update_payloads sampleTables calmServer freshConn).2
    { membershipById with Id := "grp:7" } 7 freshConn rfl

/-- C11, as the code has it: a successful Read rebuilds from the identifier and
the remote answer alone the identifier and every field that mirrors remote
state. Group membership: the identifier is `buildTwoPartID groupId (Itoa
member.ID)`, group_id is the decoded group, user_id, username and access_level
are the member's, expires_at is the member's date text or "" when there is no
expiry; the two destroy-time flags are not written and stay as the prior
record had them. MR approvals: the identifier stays, project_id is the decoded
identifier and the five flags are the remote values. Hence two prior records
with the same identifier are read to records that agree on the identifier and
on all those fields. -/
theorem read_repopulates_remote_fields {σ : Type} (pkg : Package) (api : API σ)
    (c : Conn σ) :
    (∀ (d : GroupMembershipData) (groupId : String) (userId : Int) (m : GroupMember) (w : σ),
      groupIdAndUserIdFromId d.Id = (groupId, userId, none) →
      api.GetGroupMember groupId userId c.world = (m, none, w) →
      resourceGitlabGroupMembershipRead pkg api d c
        = ([],
            { Id := buildTwoPartID groupId (strconv.Itoa m.ID),
              group_id := groupId,
              user_id := m.ID,
              username := m.Username,
              access_level := pkg.accessLevelValueToName m.AccessLevel,
              expires_at := m.ExpiresAt.getD "",
              skip_subresources_on_destroy := d.skip_subresources_on_destroy,
              unassign_issuables_on_destroy := d.unassign_issuables_on_destroy },
            { world := w, calls := c.calls ++ [Call.GetGroupMember groupId userId] })) ∧
    (∀ (d : ProjectLevelMRApprovalsData) (projectId : Int) (a : ProjectApprovals) (w : σ),
      strconv.Atoi d.Id = (projectId, none) →
      api.GetApprovalConfiguration (ProjectRef.int projectId) c.world = (a, none, w) →
      resourceGitlabProjectLevelMRApprovalsRead api d c
        = ([],
            { Id := d.Id,
              project_id := projectId,
              flags :=
                { reset_approvals_on_push := a.ResetApprovalsOnPush,
                  disable_overriding_approvers_per_merge_request :=
                    a.DisableOverridingApproversPerMergeRequest,
                  merge_requests_author_approval := a.MergeRequestsAuthorApproval,
                  merge_requests_disable_committers_approval :=
                    a.MergeRequestsDisableCommittersApproval,
                  require_password_to_approve := a.RequirePasswordToApprove },
              state := d.state },
            { world := w,
              calls := c.calls ++
                [Call.GetApprovalConfiguration (ProjectRef.int projectId)] })) := by
  refine ⟨?_, ?_⟩
  · intro d groupId userId m w hdec hget
    cases hexp : m.ExpiresAt <;>
      simp [resourceGitlabGroupMembershipRead, hdec, client.GroupMembers.GetGroupMember, hget,
        resourceGitlabGroupMembershipSetToState, hexp]
  · intro d projectId a w hdec hget
    simp [resourceGitlabProjectLevelMRApprovalsRead, hdec,
      client.Projects.GetApprovalConfiguration, hget]

theorem read_repopulates_remote_fields_witness :
    resourceGitlabGroupMembershipRead sampleTables calmServer
        { Id := "grp:7", group_id := "", user_id := 0, username := "", access_level := "",
          expires_at := "stale", skip_subresources_on_destroy := true,
          unassign_issuables_on_destroy := false } freshConn
      = ([],
          { Id := buildTwoPartID "grp" (strconv.Itoa 7), group_id := "grp", user_id := 7,
            username := "alice", access_level := "developer", expires_at := "",
            skip_subresources_on_destroy := true, unassign_issuables_on_destroy := false },
          { world := (), calls := [Call.GetGroupMember "grp" 7] }) :=
  (read_repopulates_remote_fields sampleTables calmServer freshConn).1
    { Id := "grp:7", group_id := "", user_id := 0, username := "", access_level := "",
      expires_at := "stale", skip_subresources_on_destroy := true,
      unassign_issuables_on_destroy := false }
    "grp" 7 { ID := 7, Username := "alice", AccessLevel := 30, ExpiresAt := none } ()
    (by decide) (by decide)

/-- C11 fails as stated: two prior records with the same identifier "grp:7" that
differ in skip_subresources_on_destroy are read successfully, against the same
server answer, to records that still differ in that schema field. -/
theorem read_keeps_destroy_flags :
    (resourceGitlabGroupMembershipRead sampleTables calmServer
        { membershipById with Id := "grp:7", skip_subresources_on_destroy := false }
        freshConn).1 = [] ∧
    (resourceGitlabGroupMembershipRead sampleTables calmServer
        { membershipById with Id := "grp:7", skip_subresources_on_destroy := true }
        freshConn).1 = [] ∧
    (resourceGitlabGroupMembershipRead sampleTables calmServer
        { membershipById with Id := "grp:7", skip_subresources_on_destroy := false }
        freshConn).2.1.skip_subresources_on_destroy = false ∧
    (resourceGitlabGroupMembershipRead sampleTables calmServer
        { membershipById with Id := "grp:7", skip_subresources_on_destroy := true }
        freshConn).2.1.skip_subresources_on_destroy = true := by
  decide

/-- C12: for an access_level name that lower-casing leaves as it is, and any
name-to-value table, Create and Update send the same access-level code: once
the target user is known, the add-member request of Create and the edit-member
request of Update both carry the table entry of the name as given. -/
theorem create_update_same_access_level {σ : Type} (pkg : Package) (api : API σ)
    (d : GroupMembershipData) (c c₁ : Conn σ) (userId : Int)
    (hlow : pkg.ToLower d.access_level = d.access_level)
    (hres : targetUserId pkg api d c = (.ok userId, c₁)) :
    pkg.accessLevelNameToValue d.access_level
      = pkg.accessLevelNameToValue (pkg.ToLower d.access_level) ∧
    (∃ rest : List Call,
      (resourceGitlabGroupMembershipCreate pkg api d c).2.2.calls
        = c₁.calls ++
            Call.AddGroupMember d.group_id
              { UserID := some userId,
                AccessLevel := some (pkg.accessLevelNameToValue d.access_level),
                ExpiresAt := some d.expires_at } :: rest) ∧
    (∃ rest : List Call,
      (resourceGitlabGroupMembershipUpdate pkg api d c).2.2.calls
        = c₁.calls ++
            Call.EditGroupMember d.group_id userId
              { AccessLevel := some (pkg.accessLevelNameToValue d.access_level),
                ExpiresAt := some d.expires_at } :: rest) := by
  refine ⟨by rw [hlow], create_calls_after_target pkg api d c c₁ userId hres, ?_⟩
  obtain ⟨rest, hrest, _⟩ := update_calls_after_target pkg api d c c₁ userId hres
  rw [hlow] at hrest
  exact ⟨rest, hrest⟩

theorem create_update_same_access_level_witness :
    sampleTables.accessLevelNameToValue membershipById.access_level
      = sampleTables.accessLevelNameToValue
          (sampleTables.ToLower membershipById.access_level) :=
  (create_update_same_access_level sampleTables calmServer membershipById freshConn freshConn 7
    (by decide) rfl).1

end GitlabProvider
